import Mathlib

/-!
Verification development for the University-AI-Assistant repository.

The Python sources under study are shallowly embedded as executable Lean
definitions: pure string manipulation is translated directly, SQLite-backed
state (the FAQ cache and the two conversation-memory tiers) becomes explicit
functional state passing with a strictly monotone logical clock standing in
for CURRENT_TIMESTAMP, and the external Gemini providers (generation and
embedding) are modelled as oracle functions supplied by an environment.
The SHA-256 digest used by the cache is modelled as the identity on the
normalized query text (the code relies on the digest being collision-free,
so two queries collide exactly when their normalizations coincide).
-/

/-! ## Python string primitives used by the sources -/

/-- Whitespace recognised by Python str.strip / str.split (ASCII part). -/
def isPySpace (c : Char) : Bool :=
  c = ' ' || c = '\t' || c = '\n' || c = '\r' || c = '\x0b' || c = '\x0c'

/-- Python str.strip(): drop leading and trailing whitespace. -/
def pyStrip (s : String) : String :=
  String.mk (((s.data.dropWhile isPySpace).reverse.dropWhile isPySpace).reverse)

/-- Python str.lower() (ASCII case folding, which covers every character the
sources compare case-insensitively). -/
def pyLower (s : String) : String :=
  String.mk (s.data.map Char.toLower)

/-- Python str.upper() (ASCII case folding). -/
def pyUpper (s : String) : String :=
  String.mk (s.data.map Char.toUpper)

/-- Splitter behind Python str.split() with no argument: split on runs of
whitespace, discarding empty pieces. The accumulator holds the current word
reversed. -/
def pySplitWsGo : List Char → List Char → List String
  | [], acc => if acc.isEmpty then [] else [String.mk acc.reverse]
  | c :: rest, acc =>
      if isPySpace c then
        if acc.isEmpty then pySplitWsGo rest []
        else String.mk acc.reverse :: pySplitWsGo rest []
      else pySplitWsGo rest (c :: acc)

/-- Python str.split() with no argument. -/
def pySplitWs (s : String) : List String :=
  pySplitWsGo s.data []

/-- Python sep.join(parts). -/
def joinWith (sep : String) : List String → String
  | [] => ""
  | [x] => x
  | x :: y :: rest => x ++ sep ++ joinWith sep (y :: rest)

/-- Concatenation of a list of strings (Python += in a loop). -/
def concatAll : List String → String
  | [] => ""
  | s :: rest => s ++ concatAll rest

/-- Python substring membership test needle in hay, on character lists. -/
def listContainsSub (needle : List Char) : List Char → Bool
  | [] => needle.isEmpty
  | c :: rest => needle.isPrefixOf (c :: rest) || listContainsSub needle rest

/-- Python needle in hay for strings. -/
def containsSub (needle hay : String) : Bool :=
  listContainsSub needle.data hay.data

/-- Python l[-n:] under the guard used by the sources: keep the window of the
n most recent elements when the list has grown past n. -/
def pyLastWindow (n : Nat) (l : List α) : List α :=
  if l.length > n then l.drop (l.length - n) else l

/-- Bounded-fuel engine behind Python s.replace(pat, "") with a non-empty
pattern: remove every non-overlapping occurrence left to right. -/
def removeAllSubGo (pat : List Char) : List Char → Nat → List Char
  | l, 0 => l
  | [], _ => []
  | c :: rest, fuel + 1 =>
      if pat.isPrefixOf (c :: rest) then
        removeAllSubGo pat ((c :: rest).drop pat.length) fuel
      else
        c :: removeAllSubGo pat rest fuel

/-- Python s.replace(pat, "") for the non-empty patterns the sources use. -/
def pyRemoveAll (pat : String) (s : String) : String :=
  String.mk (removeAllSubGo pat.data s.data s.data.length)

/-! ## FAQ cache (src/database/faq_cache.py)

The SQLite table faq_cache becomes a list of entries plus an autoincrement
counter and a logical clock. CURRENT_TIMESTAMP is the cache clock, which
strictly increases by one on every get/set and can jump forward with
advance (the passage of wall-clock time between requests). -/

/-- Row of the faq_cache table. -/
structure CacheEntry where
  id : Nat
  queryHash : String
  query : String
  response : String
  hitCount : Nat
  createdAt : Nat
  lastAccessed : Nat
deriving DecidableEq, Repr

/-- State of FAQCache: table rows plus configuration and the logical clock. -/
structure FAQCache where
  entries : List CacheEntry
  nextId : Nat
  clock : Nat
  ttlHours : Nat
  maxSize : Nat
deriving DecidableEq, Repr

/-- FAQCache._hash_query: normalize = lowercase, strip, collapse whitespace;
the SHA-256 digest of the normalized text is modelled as the normalized text
itself (collision-freeness abstraction). -/
def hashQuery (query : String) : String :=
  joinWith " " (pySplitWs (pyStrip (pyLower query)))

/-- Entry freshness test used by FAQCache.get: created_at > now - ttl_hours,
written additively over Nat. -/
def entryFresh (ttlHours clock : Nat) (e : CacheEntry) : Bool :=
  clock < e.createdAt + ttlHours

/-- FAQCache.get: look up a TTL-fresh row by query hash; on a hit bump
hit_count and last_accessed of the row with that hash. -/
def FAQCache.get (c : FAQCache) (query : String) : Option String × FAQCache :=
  let h := hashQuery query
  match c.entries.find? (fun e => e.queryHash == h && entryFresh c.ttlHours c.clock e) with
  | some e =>
      (some e.response,
       { c with
          entries := c.entries.map (fun x =>
            if x.queryHash == h then
              { x with hitCount := x.hitCount + 1, lastAccessed := c.clock }
            else x),
          clock := c.clock + 1 })
  | none => (none, { c with clock := c.clock + 1 })

/-- One step of the LRU delete: remove the first entry whose last_accessed is
minimal (ORDER BY last_accessed ASC LIMIT 1, ties broken arbitrarily). -/
def removeMinLA : List CacheEntry → List CacheEntry
  | [] => []
  | e :: rest =>
      if rest.all (fun x => e.lastAccessed ≤ x.lastAccessed) then rest
      else e :: removeMinLA rest

/-- Delete the n least-recently-accessed entries. -/
def dropLRU : Nat → List CacheEntry → List CacheEntry
  | 0, l => l
  | n + 1, l => dropLRU n (removeMinLA l)

/-- FAQCache._cleanup_if_needed: when the row count exceeds max_size, delete
the excess least-recently-accessed rows. -/
def cleanupIfNeeded (maxSize : Nat) (entries : List CacheEntry) : List CacheEntry :=
  if entries.length > maxSize then dropLRU (entries.length - maxSize) entries
  else entries

/-- FAQCache.set: upsert by query hash (insert with hit_count 1, or overwrite
response and bump hit_count and last_accessed without touching created_at),
then run the LRU cleanup. -/
def FAQCache.set (c : FAQCache) (query response : String) : FAQCache :=
  let h := hashQuery query
  let entries' :=
    if c.entries.any (fun e => e.queryHash == h) then
      c.entries.map (fun e =>
        if e.queryHash == h then
          { e with response := response, hitCount := e.hitCount + 1, lastAccessed := c.clock }
        else e)
    else
      c.entries ++ [{ id := c.nextId, queryHash := h, query := query, response := response,
                      hitCount := 1, createdAt := c.clock, lastAccessed := c.clock }]
  { c with
     entries := cleanupIfNeeded c.maxSize entries',
     nextId := c.nextId + 1,
     clock := c.clock + 1 }

/-- Passage of wall-clock time between cache operations. -/
def FAQCache.advance (c : FAQCache) (n : Nat) : FAQCache :=
  { c with clock := c.clock + n }

/-- Empty cache with the given configuration. -/
def FAQCache.empty (ttlHours maxSize : Nat) : FAQCache :=
  { entries := [], nextId := 0, clock := 0, ttlHours := ttlHours, maxSize := maxSize }

/-- Uniqueness invariant of the faq_cache table: query_hash is UNIQUE. -/
def NodupHashes (c : FAQCache) : Prop :=
  (c.entries.map (fun e => e.queryHash)).Nodup

/-- Operations a caller can perform on the cache (the decorator and app code
only ever get and set; advance stands for time passing in between). -/
inductive CacheOp where
  | get (q : String)
  | set (q r : String)
  | advance (n : Nat)
deriving DecidableEq, Repr

/-- Run a sequence of cache operations. -/
def runCacheOps : List CacheOp → FAQCache → FAQCache
  | [], c => c
  | CacheOp.get q :: rest, c => runCacheOps rest (FAQCache.get c q).2
  | CacheOp.set q r :: rest, c => runCacheOps rest (FAQCache.set c q r)
  | CacheOp.advance n :: rest, c => runCacheOps rest (FAQCache.advance c n)

/-! ## Regular expressions

A small derivative-based matcher standing in for Python re full-anchored
matching (re.match with a pattern ending in a dollar anchor). Character
tests are Boolean predicates so case-insensitive classes translate
directly. -/

/-- Regex abstract syntax: empty language, empty string, predicate character,
sequence, alternation, Kleene star. -/
inductive RE where
  | fail
  | eps
  | char (p : Char → Bool)
  | seq (a b : RE)
  | alt (a b : RE)
  | star (a : RE)

/-- Smart sequence constructor collapsing the empty language and the empty
string. -/
def RE.mkSeq : RE → RE → RE
  | .fail, _ => .fail
  | _, .fail => .fail
  | .eps, b => b
  | a, .eps => a
  | a, b => .seq a b

/-- Smart alternation constructor collapsing the empty language. -/
def RE.mkAlt : RE → RE → RE
  | .fail, b => b
  | a, .fail => a
  | a, b => .alt a b

/-- Does the regex accept the empty string. -/
def RE.nullable : RE → Bool
  | .fail => false
  | .eps => true
  | .char _ => false
  | .seq a b => a.nullable && b.nullable
  | .alt a b => a.nullable || b.nullable
  | .star _ => true

/-- Brzozowski derivative with respect to one character. -/
def RE.deriv : RE → Char → RE
  | .fail, _ => .fail
  | .eps, _ => .fail
  | .char p, c => if p c then .eps else .fail
  | .seq a b, c =>
      if a.nullable then RE.mkAlt (RE.mkSeq (a.deriv c) b) (b.deriv c)
      else RE.mkSeq (a.deriv c) b
  | .alt a b, c => RE.mkAlt (a.deriv c) (b.deriv c)
  | .star a, c => RE.mkSeq (a.deriv c) (.star a)

/-- Full-string match. -/
def RE.rmatch (r : RE) (s : String) : Bool :=
  (s.data.foldl RE.deriv r).nullable

/-- Case-insensitive literal character (pattern characters are lowercase). -/
def ichar (c : Char) : RE :=
  RE.char (fun a => a.toLower = c)

/-- Case-insensitive literal word. -/
def lit (s : String) : RE :=
  s.data.foldr (fun c r => RE.seq (ichar c) r) RE.eps

/-- One whitespace character, the regex class backslash-s. -/
def wsChar : RE :=
  RE.char isPySpace

/-- Zero or more whitespace characters. -/
def wsStar : RE :=
  RE.star wsChar

/-- Optional regex (question-mark quantifier). -/
def REopt (a : RE) : RE :=
  RE.alt RE.eps a

/-- Character class of the given characters. -/
def charIn (cs : List Char) : RE :=
  RE.char (fun a => cs.contains a)

/-- Chained alternation, left-nested as the Python pattern reads. -/
def altList : List RE → RE
  | [] => RE.fail
  | [r] => r
  | r :: s :: rest => RE.alt r (altList (s :: rest))

/-- Chained sequence. -/
def seqList : List RE → RE
  | [] => RE.eps
  | [r] => r
  | r :: s :: rest => RE.seq r (seqList (s :: rest))

/-- Greeting alternatives shared by the two greeting patterns in the sources
(the orchestrator pattern adds help, see below). -/
def greetingAltsCommon : List RE :=
  [lit "hi", lit "hello", lit "hey", lit "bonjour", lit "salut", lit "salam", lit "bonsoir",
   seqList [lit "good", wsStar, altList [lit "morning", lit "afternoon", lit "evening"]],
   seqList [lit "how", wsStar, lit "are", wsStar, lit "you"],
   seqList [lit "what", REopt (RE.char (fun a => a = '\x27')), REopt (ichar 's'), wsStar, lit "up"],
   lit "yo", lit "thanks", seqList [lit "thank", wsStar, lit "you"], lit "merci",
   lit "bye", lit "goodbye", seqList [lit "au", wsStar, lit "revoir"]]

/-- The greeting fast-path pattern of LLMClient.classify_intent
(src/core/llm.py): anchored alternatives, optional trailing whitespace and
punctuation, applied to the stripped query. -/
def llmGreetingRe : RE :=
  seqList [altList (greetingAltsCommon ++ [lit "aidez", seqList [lit "comment", wsStar, lit "vas"]]),
           wsStar, RE.star (charIn ['!', '?', '.'])]

/-- The module-level _GREETING_PATTERNS of src/agents/orchestrator.py:
leading whitespace allowed, the extra alternative help, and trailing
whitespace after the punctuation. -/
def orchGreetingRe : RE :=
  seqList [wsStar,
           altList (greetingAltsCommon ++
             [lit "help", lit "aidez", seqList [lit "comment", wsStar, lit "vas"]]),
           wsStar, RE.star (charIn ['!', '?', '.']), wsStar]

/-! ## Intent classification (LLMClient.classify_intent, src/core/llm.py)

The generation provider is an oracle from prompt to returned text; the
second component of the result counts how many generation calls the
classifier issued. -/

/-- Admin keyword fast-path list. -/
def adminKeywords : List String :=
  ["student data", "system metric", "all users", "manage document"]

/-- Does the (stripped) query contain an admin keyword, case-insensitively. -/
def adminKeywordHit (q : String) : Bool :=
  adminKeywords.any (fun kw => containsSub kw (pyLower q))

/-- The three-way classification prompt sent to the model. -/
def classifyPrompt (q : String) : String :=
  "Classify the following user query into one of these categories:\n" ++
  "- qa: Questions about university policies, procedures, academics, administration\n" ++
  "- admin: Administrative queries about student data, system metrics (staff only)\n" ++
  "- general: General greetings, off-topic, or unclear queries\n\n" ++
  "Query: \"" ++ q ++ "\"\n\n" ++
  "Respond with ONLY the category name (qa, admin, or general):"

/-- Valid intents accepted from the model. -/
def validIntents : List String :=
  ["qa", "admin", "general"]

/-- LLMClient.classify_intent: greeting fast path, admin keyword fast path,
then one generation call whose stripped lowercased output is accepted only
when it is a valid intent, defaulting to qa. Returns the intent and the
number of generation calls made. -/
def classifyIntent (gen : String → String) (query : String) : String × Nat :=
  let q := pyStrip query
  if llmGreetingRe.rmatch q then ("general", 0)
  else if adminKeywordHit q then ("admin", 0)
  else
    let response := gen (classifyPrompt q)
    let intent := pyLower (pyStrip response)
    (if validIntents.contains intent then intent else "qa", 1)

example : llmGreetingRe.rmatch "Bonjour" = true := by decide
example : llmGreetingRe.rmatch "hello!!" = true := by decide
example : llmGreetingRe.rmatch "show me all users data" = false := by decide
example : llmGreetingRe.rmatch "what is the deadline" = false := by decide
example : orchGreetingRe.rmatch "  Good morning ! " = true := by decide
example : adminKeywordHit "show me ALL USERS data" = true := by decide
example : classifyIntent (fun _ => "banana") "where is the library" = ("qa", 1) := by decide
example : classifyIntent (fun _ => " General ") "tell me something" = ("general", 1) := by decide

/-! ## Embedding adapters

Two distinct adapters exist in the sources. Provider calls are oracles
indexed by attempt number (and, for a batch, by text position); a call
either succeeds with a vector, signals a rate limit (429 or
RESOURCE_EXHAUSTED in the exception text), or fails otherwise. Embedding
values are opaque to the code, so vectors are modelled as integer lists. -/

/-- Outcome of one embed_content provider call. -/
inductive EmbedOutcome where
  | success (v : List Int)
  | rateLimited
  | otherError
deriving DecidableEq, Repr

/-- Loop body of GeminiEmbeddingFunction._embed_with_retry
(src/GeminiEmbeddingFunction.py): attempt is the 0-based index of the next
call, fuel the remaining loop iterations. Returns the number of calls made,
the sleep durations performed (30 * attempt_number seconds each), and the
vector if one was obtained; a non-rate-limit error abandons immediately,
and running out of attempts yields none. -/
def embedWithRetryGo (provider : Nat → EmbedOutcome) : Nat → Nat → Nat × List Nat × Option (List Int)
  | _, 0 => (0, [], none)
  | attempt, fuel + 1 =>
      match provider attempt with
      | .success v => (1, [], some v)
      | .rateLimited =>
          let rest := embedWithRetryGo provider (attempt + 1) fuel
          (rest.1 + 1, 30 * (attempt + 1) :: rest.2.1, rest.2.2)
      | .otherError => (1, [], none)

/-- GeminiEmbeddingFunction._embed_with_retry with its default of 5
attempts. -/
def embedWithRetry (provider : Nat → EmbedOutcome) : Nat × List Nat × Option (List Int) :=
  embedWithRetryGo provider 0 5

/-- GeminiEmbeddingFunction.__call__: embed every text (provider indexed by
text position and attempt), then raise RuntimeError when any embedding came
back missing. -/
def geminiEmbeddingFunctionCall (provider : Nat → Nat → EmbedOutcome) (input : List String) :
    Except String (List (List Int)) :=
  let results := (List.range input.length).map (fun i => (embedWithRetry (provider i)).2.2)
  if results.any Option.isNone then Except.error "Some embeddings failed. Please retry."
  else Except.ok (results.map (fun o => o.getD []))

/-- Fixed embedding dimension of GeminiEmbeddings (src/core/embeddings.py). -/
def embeddingDim : Nat := 768

/-- GeminiEmbeddings.__call__ (src/core/embeddings.py): one provider call per
text, no retry, any failure (rate limit included) replaced by a zero vector
of the fixed dimension. -/
def geminiEmbeddingsCall (provider : Nat → EmbedOutcome) (input : List String) : List (List Int) :=
  (List.range input.length).map (fun i =>
    match provider i with
    | .success v => v
    | _ => List.replicate embeddingDim 0)

/-! ## Prompt assembly (LLMClient.generate_with_context, src/core/llm.py) -/

/-- One turn of the in-process conversation history as the prompt builder
reads it. -/
structure SessionTurn where
  user : String
  assistant : String
  timestamp : Nat
deriving DecidableEq, Repr

/-- Numbered reference block lines, one per passage in ranked order. -/
def refLines (i : Nat) : List String → List String
  | [] => []
  | p :: rest => ("[Reference " ++ toString (i + 1) ++ "]: " ++ p) :: refLines (i + 1) rest

/-- History rendering: the last five turns as alternating user/assistant
lines. -/
def historyText (history : List SessionTurn) : String :=
  concatAll ((history.drop (history.length - 5)).map (fun t =>
    "User: " ++ t.user ++ "\n" ++ "Assistant: " ++ t.assistant ++ "\n\n"))

/-- Default system prompt of LLMClient._default_university_prompt. -/
def defaultUniversityPrompt : String :=
  "You are a helpful AI assistant for university students and staff.\n" ++
  "Your role is to answer questions about university policies, procedures, academic programs, \n" ++
  "and administrative matters using the provided reference information.\n\n" ++
  "Guidelines:\n" ++
  "- Be accurate and base your answers on the provided references\n" ++
  "- Be friendly and professional in your tone\n" ++
  "- If information is not in the references, say so clearly\n" ++
  "- Provide specific details like dates, requirements, and procedures when available\n" ++
  "- For complex procedures, break down steps clearly\n" ++
  "- Do not invent or assume information not present in the references"

/-- The assembled prompt of generate_with_context before any truncation:
system prompt, reference block, optional previous-conversation header,
history, question, closing instruction. -/
def assemblePrompt (systemPrompt : String) (passages : List String)
    (history : List SessionTurn) (query : String) : String :=
  let context := joinWith "\n\n" (refLines 0 passages)
  let hist := historyText history
  "\n" ++ systemPrompt ++ "\n\nREFERENCE INFORMATION:\n" ++ context ++ "\n\n" ++
  (if hist = "" then "" else "PREVIOUS CONVERSATION:") ++ "\n" ++ hist ++
  "\n\nUSER QUESTION: " ++ query ++
  "\n\nProvide a helpful, accurate response based on the reference information above.\n"

/-- Truncation marker appended when the assembled prompt exceeds the
configured character budget. -/
def truncationMarker : String :=
  "\n[Context truncated due to length]"

/-- The prompt generate_with_context actually sends to the provider: the
assembled prompt, hard-truncated to max_context characters with the marker
appended when it is too long. -/
def generateWithContextPrompt (maxContext : Nat) (query : String) (passages : List String)
    (history : List SessionTurn) (systemPrompt : Option String) : String :=
  let prompt := assemblePrompt (systemPrompt.getD defaultUniversityPrompt) passages history query
  if prompt.length > maxContext then prompt.take maxContext ++ truncationMarker
  else prompt

example :
    embedWithRetry (fun _ => EmbedOutcome.rateLimited) = (5, [30, 60, 90, 120, 150], none) := by
  decide

example :
    geminiEmbeddingFunctionCall (fun _ _ => EmbedOutcome.rateLimited) ["t"]
      = Except.error "Some embeddings failed. Please retry." := rfl

example :
    geminiEmbeddingsCall (fun _ => EmbedOutcome.rateLimited) ["a", "b"]
      = [List.replicate 768 0, List.replicate 768 0] := rfl

/-! ## Conversation memory (src/core/memory.py)

Session tier: a per-session list of turns capped at max_turns. Durable
tier: the append-only conversations table. Timestamps come from the logical
clock the application threads through. -/

/-- In-process session memory: bounded per-session turn buffers keyed by
session id. -/
structure SessionMemory where
  maxTurns : Nat
  sessions : List (String × List SessionTurn)
deriving DecidableEq, Repr

/-- SessionMemory.get_history: the buffered window for a session, oldest
first, empty when the session is unknown. -/
def SessionMemory.getHistory (m : SessionMemory) (sid : String) : List SessionTurn :=
  match m.sessions.find? (fun p => p.1 == sid) with
  | some p => p.2
  | none => []

/-- SessionMemory.add_turn: append the turn to the session buffer (creating
it if needed) and trim to the last max_turns entries. -/
def SessionMemory.addTurn (m : SessionMemory) (sid query response : String) (now : Nat) :
    SessionMemory :=
  let turns := pyLastWindow m.maxTurns
    (m.getHistory sid ++ [{ user := query, assistant := response, timestamp := now }])
  if m.sessions.any (fun p => p.1 == sid) then
    { m with sessions := m.sessions.map (fun p => if p.1 == sid then (p.1, turns) else p) }
  else
    { m with sessions := m.sessions ++ [(sid, turns)] }

/-- Row of the durable conversations table. -/
structure ConvRow where
  id : Nat
  sessionId : String
  userId : Option String
  query : String
  response : String
  intent : Option String
  contextChunks : String
  timestamp : Nat
deriving DecidableEq, Repr

/-- Durable conversation memory: the conversations table plus its
autoincrement counter. -/
structure ConversationMemory where
  rows : List ConvRow
  nextId : Nat
deriving DecidableEq, Repr

/-- ConversationMemory.add_turn: append one row, joining the grounding
passages with the pipe delimiter. -/
def ConversationMemory.addTurn (cm : ConversationMemory) (sid : String) (uid : Option String)
    (query response : String) (intent : Option String) (chunks : List String) (now : Nat) :
    ConversationMemory :=
  { rows := cm.rows ++
      [{ id := cm.nextId, sessionId := sid, userId := uid, query := query, response := response,
         intent := intent, contextChunks := joinWith "|" chunks, timestamp := now }],
    nextId := cm.nextId + 1 }

/-! ## Retrieval, environment, and the Q&A agent (src/agents/qa_agent.py) -/

/-- Metadata of one retrieved passage as the agent reads it: each field is
optional because the code supplies defaults. -/
structure PassageMeta where
  source : Option String
  documentType : Option String
  page : Option Nat
deriving DecidableEq, Repr

/-- Result of one vector-store query, fields aligned by position; positions
whose metadata was missing or not a dict carry none. -/
structure RetrievalResult where
  documents : List String
  metadatas : List (Option PassageMeta)
  distances : List Int
deriving DecidableEq, Repr

/-- Document filter accepted by the filtered query path. -/
structure DocFilter where
  documentType : Option String
  sourceFile : Option String
deriving DecidableEq, Repr

/-- External collaborators of the pipeline: the generation provider, the
vector index (plain and filtered query), the retrieval and context
configuration, and the admin database (schema text, SQL execution with rows
abstracted to strings, and result-preview rendering). -/
structure Env where
  gen : String → String
  retrieve : String → Nat → RetrievalResult
  retrieveFiltered : String → Option String → Option String → Nat → RetrievalResult
  topK : Nat
  maxContext : Nat
  schema : String
  sqlExec : String → Except String (List String)
  renderRows : List String → String

/-- One deduplicated source entry reported to the caller. -/
structure SourceEntry where
  file : String
  documentType : String
  page : Option Nat
deriving DecidableEq, Repr

/-- Loop of QAAgent._extract_sources: skip missing metadata, deduplicate by
source keeping first-seen order. -/
def extractSourcesGo (seen : List String) : List (Option PassageMeta) → List SourceEntry
  | [] => []
  | none :: rest => extractSourcesGo seen rest
  | some m :: rest =>
      let src := m.source.getD "Unknown"
      if seen.contains src then extractSourcesGo seen rest
      else { file := src, documentType := m.documentType.getD "general", page := m.page } ::
        extractSourcesGo (src :: seen) rest

/-- QAAgent._extract_sources. -/
def extractSources (metadatas : List (Option PassageMeta)) : List SourceEntry :=
  extractSourcesGo [] metadatas

/-- Opening of the fixed no-context apology, up to the quoted query. -/
def noContextOpen : String :=
  "I apologize, but I couldn\x27t find specific information about \""

/-- Closing of the fixed no-context apology, after the quoted query. -/
def noContextClose : String :=
  "\" in our university documents.\n\n" ++
  "Here are some suggestions:\n" ++
  "1. Try rephrasing your question with different keywords\n" ++
  "2. Contact the relevant administrative office directly\n" ++
  "3. Check the university website for the most up-to-date information\n\n" ++
  "Is there something else I can help you with?"

/-- QAAgent._no_context_response: fixed-shape apology quoting the query. -/
def noContextResponse (query : String) : String :=
  noContextOpen ++ query ++ noContextClose

/-- The QA system prompt built by QAAgent._build_system_prompt. -/
def qaSystemPrompt : String :=
  "You are an expert university administrative assistant with deep knowledge of academic policies, procedures, and student services.\n\n" ++
  "Your role is to:\n" ++
  "1. Answer questions accurately based on the provided reference documents\n" ++
  "2. Provide clear, step-by-step guidance for procedures\n" ++
  "3. Include specific details like deadlines, requirements, and contact information when available\n" ++
  "4. Be sympathetic to student concerns while maintaining professionalism\n" ++
  "5. Redirect to appropriate offices when questions are beyond your knowledge\n\n" ++
  "Guidelines:\n" ++
  "- Base answers ONLY on the provided reference passages\n" ++
  "- If information is incomplete, acknowledge what you know and what\x27s unclear\n" ++
  "- Never invent policies or procedures\n" ++
  "- Use a friendly, helpful tone\n" ++
  "- For complex procedures, use numbered steps\n" ++
  "- Include relevant deadlines or timeframes when mentioned in references"

/-- Result shape of QAAgent.answer. -/
structure QAResult where
  answer : String
  sources : List SourceEntry
  contextChunks : List String
  numPassages : Nat
  distances : List Int
deriving DecidableEq, Repr

/-- QAAgent.answer: retrieve (filtered when a filter dict is supplied),
then either ground the answer with generate_with_context or fall back to the
fixed no-context response; the second component counts generation-provider
calls. -/
def QAAgent.answer (env : Env) (query : String) (history : List SessionTurn)
    (docFilter : Option DocFilter) : QAResult × Nat :=
  let results :=
    match docFilter with
    | some f => env.retrieveFiltered query f.documentType f.sourceFile env.topK
    | none => env.retrieve query env.topK
  let passages := results.documents
  if passages.isEmpty then
    ({ answer := noContextResponse query, sources := [], contextChunks := passages,
       numPassages := passages.length, distances := results.distances }, 0)
  else
    ({ answer := env.gen (generateWithContextPrompt env.maxContext query passages history
         (some qaSystemPrompt)),
       sources := extractSources results.metadatas, contextChunks := passages,
       numPassages := passages.length, distances := results.distances }, 1)

/-! ## Admin agent (src/agents/admin_agent.py) -/

/-- The SQL-generation prompt of AdminAgent._generate_sql. -/
def adminSqlPrompt (schema userQuery : String) : String :=
  "You are a SQL expert. Convert the following natural language query to SQL.\n\n" ++
  "Database Schema:\n" ++ schema ++ "\n\n" ++
  "User Query: \"" ++ userQuery ++ "\"\n\n" ++
  "Rules:\n" ++
  "- Only generate SELECT queries (no INSERT, UPDATE, DELETE)\n" ++
  "- Use proper SQL syntax for SQLite\n" ++
  "- Return ONLY the SQL query, nothing else\n" ++
  "- If the query cannot be answered with the schema, return \"INVALID\"\n\n" ++
  "SQL Query:"

/-- AdminAgent._generate_sql: one generation call, markdown fences stripped,
rejected unless it is a SELECT and not flagged INVALID. -/
def adminGenerateSql (env : Env) (userQuery : String) : Option String :=
  let response := env.gen (adminSqlPrompt env.schema userQuery)
  let sql := pyStrip (pyRemoveAll "\x60\x60\x60" (pyRemoveAll "\x60\x60\x60sql" (pyStrip response)))
  if containsSub "INVALID" (pyUpper sql) || !("SELECT".isPrefixOf (pyUpper sql)) then none
  else some sql

/-- The result-summarisation prompt of AdminAgent._format_response; the
source receives the SQL text as well but never interpolates it. -/
def adminFormatPrompt (userQuery _sql preview : String) (total : Nat) : String :=
  "Convert these database results into a natural, helpful response.\n\n" ++
  "User asked: \"" ++ userQuery ++ "\"\n\n" ++
  "Results (showing up to 10 of " ++ toString total ++ " total):\n" ++ preview ++ "\n\n" ++
  "Provide a clear, natural language summary of the data. Include specific numbers and names where relevant.\n" ++
  "Keep the response concise but informative."

/-- AdminAgent.query: generate SQL, execute it, and summarise; every failure
is converted to an apologetic answer rather than raised. -/
def AdminAgent.query (env : Env) (userQuery : String) : String :=
  match adminGenerateSql env userQuery with
  | none => "I couldn\x27t understand that query. Could you rephrase it?"
  | some sql =>
      match env.sqlExec sql with
      | Except.error e => "I encountered an error executing that query: " ++ e
      | Except.ok results =>
          if results.isEmpty then "No results found matching your query."
          else env.gen (adminFormatPrompt userQuery sql (env.renderRows (results.take 10))
            results.length)

/-! ## Orchestrator (src/agents/orchestrator.py) and app entry
(src/app.py) -/

/-- The friendly general-chat prompt of
AgentOrchestrator._handle_general_query. -/
def generalPrompt (query : String) : String :=
  "You are a friendly university AI assistant named \"University Assistant\".\n" ++
  "The user said: \"" ++ query ++ "\"\n\n" ++
  "If this is a greeting, respond warmly and offer to help with university-related questions.\n" ++
  "You can also help with generating administrative emails.\n" ++
  "If this is a thank you, respond politely.\n" ++
  "If this is off-topic, politely redirect to university topics you can help with.\n\n" ++
  "Keep your response brief, friendly and helpful. Respond in the same language the user used."

/-- Uniform shape of an agent response as the orchestrator consumes it
(missing dict keys become the empty defaults the orchestrator applies). -/
structure AgentResponse where
  answer : String
  sources : List SourceEntry
  contextChunks : List String
deriving DecidableEq, Repr

/-- AgentOrchestrator._route_to_agent with the always-true admin permission
check of the source. -/
def routeToAgent (env : Env) (query intent : String) (history : List SessionTurn)
    (docFilter : Option DocFilter) : AgentResponse :=
  if intent = "qa" then
    let r := (QAAgent.answer env query history docFilter).1
    { answer := r.answer, sources := r.sources, contextChunks := r.contextChunks }
  else if intent = "admin" then
    { answer := AdminAgent.query env query, sources := [], contextChunks := [] }
  else
    { answer := env.gen (generalPrompt query), sources := [], contextChunks := [] }

/-- What AgentOrchestrator.process_query returns to its caller. -/
structure ProcessResult where
  answer : String
  intent : String
  sources : List SourceEntry
deriving DecidableEq, Repr

/-- AgentOrchestrator.process_query: read history, classify (greeting fast
path first), route, then unconditionally record the turn in both memory
tiers. -/
def processQuery (env : Env) (sid : String) (uid : Option String) (query : String)
    (sm : SessionMemory) (cm : ConversationMemory) (now : Nat) :
    ProcessResult × SessionMemory × ConversationMemory :=
  let history := sm.getHistory sid
  let intent :=
    if orchGreetingRe.rmatch query then "general" else (classifyIntent env.gen query).1
  let response := routeToAgent env query intent history none
  let sm' := sm.addTurn sid query response.answer now
  let cm' := cm.addTurn sid uid query response.answer (some intent) response.contextChunks now
  ({ answer := response.answer, intent := intent, sources := response.sources }, sm', cm')

/-- Application-level state the chat handler in src/app.py threads between
turns: the response cache and the two memory tiers, plus the logical clock
used for memory timestamps. -/
structure AppState where
  cache : FAQCache
  sessionMem : SessionMemory
  convMem : ConversationMemory
  now : Nat

/-- What one chat turn delivers to the user. -/
structure TurnOut where
  responseText : String
  sources : List SourceEntry
deriving DecidableEq, Repr

/-- The module-level chat handler of src/app.py: check the response cache
first and, on a hit, return the cached text with an empty sources list; on a
miss, run the orchestrator, cache the answer, and return it with its
sources. -/
def appHandleTurn (env : Env) (sid : String) (uid : Option String) (st : AppState)
    (query : String) : TurnOut × AppState :=
  match FAQCache.get st.cache query with
  | (some cached, cache') =>
      ({ responseText := cached, sources := [] },
       { st with cache := cache', now := st.now + 1 })
  | (none, cache') =>
      let r := processQuery env sid uid query st.sessionMem st.convMem st.now
      let cache'' := FAQCache.set cache' query r.1.answer
      ({ responseText := r.1.answer, sources := r.1.sources },
       { cache := cache'', sessionMem := r.2.1, convMem := r.2.2, now := st.now + 1 })

/-- The row FAQCache.set would update for a hash: the unique one when the
UNIQUE constraint holds. -/
def lookupHash (c : FAQCache) (h : String) : Option CacheEntry :=
  c.entries.find? (fun e => e.queryHash == h)

/-- Hit counter of the row currently stored for a hash, zero when absent. -/
def oldHitCount (c : FAQCache) (h : String) : Nat :=
  match lookupHash c h with
  | some e0 => e0.hitCount
  | none => 0

/-- The created_at a set leaves for a hash: the pre-existing row keeps its
created_at (the upsert never touches it), a fresh insert stamps the current
clock. -/
def createdAtAfterSet (c : FAQCache) (h : String) : Nat :=
  match lookupHash c h with
  | some e0 => e0.createdAt
  | none => c.clock

/-- Inert test environment: empty index, trivial providers. Used to
instantiate theorems at concrete inputs. -/
def stubEnv : Env :=
  { gen := fun _ => "GEN",
    retrieve := fun _ _ => { documents := [], metadatas := [], distances := [] },
    retrieveFiltered := fun _ _ _ _ => { documents := [], metadatas := [], distances := [] },
    topK := 5,
    maxContext := 8000,
    schema := "",
    sqlExec := fun _ => Except.ok [],
    renderRows := fun _ => "" }

/-- Application state with one freshly cached greeting and empty memory
tiers, for instantiating the entry-point theorems. -/
def demoHitState : AppState :=
  { cache := FAQCache.set (FAQCache.empty 24 10) "hi" "Hello! How can I help you today?",
    sessionMem := { maxTurns := 10, sessions := [] },
    convMem := { rows := [], nextId := 0 },
    now := 0 }

/-- Application state with an empty cache and empty memory tiers, for
instantiating the entry-point theorems on the cache-miss path. -/
def demoMissState : AppState :=
  { cache := FAQCache.empty 24 10,
    sessionMem := { maxTurns := 10, sessions := [] },
    convMem := { rows := [], nextId := 0 },
    now := 0 }

example : hashQuery "  What IS   the Deadline?" = hashQuery "what is the deadline?" := by decide

/-! ## Cache lemmas -/

theorem removeMinLA_length (l : List CacheEntry) : (removeMinLA l).length = l.length - 1 := by
  induction l with
  | nil => rfl
  | cons e rest ih =>
      by_cases h : rest.all (fun x => e.lastAccessed ≤ x.lastAccessed) = true
      · simp [removeMinLA, h]
      · cases rest with
        | nil => simp at h
        | cons y ys => simp [removeMinLA, h] at ih ⊢; omega

theorem removeMinLA_sublist (l : List CacheEntry) : (removeMinLA l).Sublist l := by
  induction l with
  | nil => simp [removeMinLA]
  | cons e rest ih =>
      by_cases h : rest.all (fun x => e.lastAccessed ≤ x.lastAccessed) = true
      · simp only [removeMinLA, h, if_true]
        exact List.sublist_cons_self e rest
      · simpa [removeMinLA, h] using List.Sublist.cons₂ e ih

theorem dropLRU_length (n : Nat) (l : List CacheEntry) : (dropLRU n l).length = l.length - n := by
  induction n generalizing l with
  | zero => simp [dropLRU]
  | succ m ih => simp [dropLRU, ih, removeMinLA_length]; omega

theorem dropLRU_sublist (n : Nat) (l : List CacheEntry) : (dropLRU n l).Sublist l := by
  induction n generalizing l with
  | zero => simp [dropLRU]
  | succ m ih => exact List.Sublist.trans (ih (removeMinLA l)) (removeMinLA_sublist l)

theorem cleanupIfNeeded_length_le (m : Nat) (l : List CacheEntry) :
    (cleanupIfNeeded m l).length ≤ m := by
  by_cases h : l.length > m
  · simp [cleanupIfNeeded, h, dropLRU_length]; omega
  · simp [cleanupIfNeeded, h]; omega

theorem cleanupIfNeeded_sublist (m : Nat) (l : List CacheEntry) :
    (cleanupIfNeeded m l).Sublist l := by
  by_cases h : l.length > m
  · simpa [cleanupIfNeeded, h] using dropLRU_sublist (l.length - m) l
  · simp [cleanupIfNeeded, h]

theorem cleanupIfNeeded_eq_self {m : Nat} {l : List CacheEntry} (h : l.length ≤ m) :
    cleanupIfNeeded m l = l := by
  simp [cleanupIfNeeded, Nat.not_lt.2 h]

theorem countP_hash_le_one (l : List CacheEntry) (h : String)
    (hN : (l.map (fun e => e.queryHash)).Nodup) :
    l.countP (fun e => e.queryHash == h) ≤ 1 := by
  induction l with
  | nil => simp
  | cons e rest ih =>
      rw [List.countP_cons]
      simp only [List.map_cons, List.nodup_cons] at hN
      by_cases he : (e.queryHash == h) = true
      · have hz : rest.countP (fun x => x.queryHash == h) = 0 := by
          refine List.countP_eq_zero.2 (fun x hx hxh => ?_)
          exact hN.1 (by
            rw [eq_of_beq he, ← eq_of_beq hxh]
            exact List.mem_map_of_mem _ hx)
        simp [he, hz]
      · simp [he]
        exact ih hN.2

theorem set_entries_length_le (c : FAQCache) (q r : String) :
    (FAQCache.set c q r).entries.length ≤ c.maxSize := by
  simp only [FAQCache.set]
  exact cleanupIfNeeded_length_le _ _

theorem set_clock_eq (c : FAQCache) (q r : String) :
    (FAQCache.set c q r).clock = c.clock + 1 := rfl

theorem set_ttl_eq (c : FAQCache) (q r : String) :
    (FAQCache.set c q r).ttlHours = c.ttlHours := rfl

theorem set_maxSize_eq (c : FAQCache) (q r : String) :
    (FAQCache.set c q r).maxSize = c.maxSize := rfl

theorem removeMinLA_append_last (old : List CacheEntry) (x : CacheEntry)
    (hne : old ≠ []) (hle : ∀ e ∈ old, e.lastAccessed ≤ x.lastAccessed) :
    removeMinLA (old ++ [x]) = removeMinLA old ++ [x] := by
  induction old with
  | nil => exact absurd rfl hne
  | cons e rest ih =>
      have hex : e.lastAccessed ≤ x.lastAccessed := hle e (by simp)
      by_cases h : (rest ++ [x]).all (fun y => e.lastAccessed ≤ y.lastAccessed) = true
      · have h1 : rest.all (fun y => e.lastAccessed ≤ y.lastAccessed) = true := by
          simp [List.all_append] at h
          exact List.all_eq_true.2 (fun y hy => by
            simpa using h.1 y hy)
        simp [removeMinLA, h, h1]
      · have h1 : rest.all (fun y => e.lastAccessed ≤ y.lastAccessed) = false := by
          rcases Bool.eq_false_or_eq_true (rest.all (fun y => e.lastAccessed ≤ y.lastAccessed))
            with ht | hf
          · exact absurd (by simp [List.all_append, ht, hex]) h
          · exact hf
        have hrne : rest ≠ [] := by
          intro he
          subst he
          simp [hex] at h
        have hle' : ∀ e ∈ rest, e.lastAccessed ≤ x.lastAccessed :=
          fun y hy => hle y (by simp [hy])
        simp [removeMinLA, h, h1, ih hrne hle']

theorem set_spec (c : FAQCache) (q r : String)
    (hN : NodupHashes c)
    (hla : ∀ e ∈ c.entries, e.lastAccessed < c.clock)
    (hlen : c.entries.length ≤ c.maxSize)
    (hmax : 1 ≤ c.maxSize) :
    (∃ e ∈ (FAQCache.set c q r).entries, e.queryHash = hashQuery q) ∧
    (∀ e ∈ (FAQCache.set c q r).entries, e.queryHash = hashQuery q →
        e.response = r ∧ e.hitCount = oldHitCount c (hashQuery q) + 1 ∧
        e.createdAt = createdAtAfterSet c (hashQuery q)) ∧
    (FAQCache.set c q r).entries.countP (fun e => e.queryHash == hashQuery q) = 1 ∧
    NodupHashes (FAQCache.set c q r) ∧
    (∀ e ∈ (FAQCache.set c q r).entries, e.lastAccessed < (FAQCache.set c q r).clock) := by
  by_cases hA : c.entries.any (fun e => e.queryHash == hashQuery q) = true
  · have hset : (FAQCache.set c q r).entries
        = c.entries.map (fun e =>
            if e.queryHash == hashQuery q then
              { e with response := r, hitCount := e.hitCount + 1, lastAccessed := c.clock }
            else e) := by
      simp only [FAQCache.set, hA, if_true]
      exact cleanupIfNeeded_eq_self (by rw [List.length_map]; exact hlen)
    obtain ⟨e1, he1⟩ : ∃ e1, lookupHash c (hashQuery q) = some e1 := by
      rcases List.any_eq_true.1 hA with ⟨x, hx, hxh⟩
      cases hfind : c.entries.find? (fun e => e.queryHash == hashQuery q) with
      | none => exact absurd (List.find?_eq_none.1 hfind x hx) (by simp [hxh])
      | some y => exact ⟨y, hfind⟩
    have he1' : c.entries.find? (fun e => e.queryHash == hashQuery q) = some e1 := he1
    have he1mem : e1 ∈ c.entries := List.mem_of_find?_eq_some he1'
    have he1pred := List.find?_some he1'
    have he1hash : (e1.queryHash == hashQuery q) = true := by simpa using he1pred
    have he1eq : e1.queryHash = hashQuery q := eq_of_beq he1hash
    have uniq : ∀ x ∈ c.entries, x.queryHash = hashQuery q → x = e1 :=
      fun x hx hxh => List.inj_on_of_nodup_map hN hx he1mem (hxh.trans he1eq.symm)
    have hupd : ∀ x : CacheEntry,
        ((fun e => if e.queryHash == hashQuery q then
            { e with response := r, hitCount := e.hitCount + 1, lastAccessed := c.clock }
          else e) x).queryHash = x.queryHash := by
      intro x
      by_cases hx : (x.queryHash == hashQuery q) = true <;> simp [hx]
    refine ⟨?_, ?_, ?_, ?_, ?_⟩
    · refine ⟨_, hset ▸ List.mem_map_of_mem _ he1mem, ?_⟩
      simp [he1hash, he1eq]
    · intro e hemem heh
      rw [hset] at hemem
      rcases List.mem_map.1 hemem with ⟨x, hx, hxe⟩
      by_cases hxh : (x.queryHash == hashQuery q) = true
      · have hx1 : x = e1 := uniq x hx (eq_of_beq hxh)
        subst hx1
        rw [← hxe]
        simp [hxh, oldHitCount, createdAtAfterSet, he1]
      · rw [← hxe] at heh
        simp [hxh] at heh
        exact absurd (by simp [heh]) hxh
    · rw [hset, List.countP_map]
      have hfun : ((fun e : CacheEntry => e.queryHash == hashQuery q) ∘
          (fun e => if e.queryHash == hashQuery q then
              { e with response := r, hitCount := e.hitCount + 1, lastAccessed := c.clock }
            else e)) = (fun e : CacheEntry => e.queryHash == hashQuery q) := by
        funext x
        rw [Function.comp_apply, hupd x]
      rw [hfun]
      have hle1 := countP_hash_le_one c.entries (hashQuery q) hN
      have hpos : 0 < c.entries.countP (fun e => e.queryHash == hashQuery q) :=
        List.countP_pos_iff.2 ⟨e1, he1mem, he1hash⟩
      omega
    · unfold NodupHashes
      rw [hset, List.map_map]
      have hfun : ((fun e : CacheEntry => e.queryHash) ∘
          (fun e => if e.queryHash == hashQuery q then
              { e with response := r, hitCount := e.hitCount + 1, lastAccessed := c.clock }
            else e)) = (fun e : CacheEntry => e.queryHash) := by
        funext x
        rw [Function.comp_apply, hupd x]
      rw [hfun]
      exact hN
    · intro e hemem
      rw [set_clock_eq]
      rw [hset] at hemem
      rcases List.mem_map.1 hemem with ⟨x, hx, hxe⟩
      by_cases hxh : (x.queryHash == hashQuery q) = true
      · rw [← hxe]; simp [hxh]
      · rw [← hxe]
        simp only [hxh, if_false]
        exact Nat.lt_trans (hla x hx) (Nat.lt_succ_self _)
  · have hAfalse : c.entries.any (fun e => e.queryHash == hashQuery q) = false := by
      simpa using hA
    have hnone : lookupHash c (hashQuery q) = none := by
      refine List.find?_eq_none.2 (fun x hx hxh => ?_)
      exact hA (List.any_eq_true.2 ⟨x, hx, hxh⟩)
    have hnot : ∀ x ∈ c.entries, x.queryHash ≠ hashQuery q := fun x hx hxh =>
      hA (List.any_eq_true.2 ⟨x, hx, by simp [hxh]⟩)
    have hsetB : (FAQCache.set c q r).entries
        = cleanupIfNeeded c.maxSize (c.entries ++
            [{ id := c.nextId, queryHash := hashQuery q, query := q, response := r,
               hitCount := 1, createdAt := c.clock, lastAccessed := c.clock }]) := by
      simp only [FAQCache.set, hAfalse, Bool.false_eq_true, if_false]
    obtain ⟨X, hX, hXsub⟩ : ∃ X, (FAQCache.set c q r).entries
        = X ++ [{ id := c.nextId, queryHash := hashQuery q, query := q, response := r,
                  hitCount := 1, createdAt := c.clock, lastAccessed := c.clock }] ∧
          X.Sublist c.entries := by
      by_cases hover : c.entries.length + 1 > c.maxSize
      · have hlenmax : c.entries.length = c.maxSize := by omega
        have hne : c.entries ≠ [] := by
          intro h0
          rw [h0] at hlenmax
          simp at hlenmax
          omega
        refine ⟨removeMinLA c.entries, ?_, removeMinLA_sublist _⟩
        rw [hsetB]
        unfold cleanupIfNeeded
        rw [if_pos (by simp; omega)]
        have hexc : (c.entries ++
            [({ id := c.nextId, queryHash := hashQuery q, query := q, response := r,
                hitCount := 1, createdAt := c.clock, lastAccessed := c.clock } : CacheEntry)]).length
              - c.maxSize = 1 := by
          simp
          omega
        rw [hexc]
        show removeMinLA _ = _
        exact removeMinLA_append_last c.entries _ hne (fun e he => Nat.le_of_lt (hla e he))
      · refine ⟨c.entries, ?_, List.Sublist.refl _⟩
        rw [hsetB]
        exact cleanupIfNeeded_eq_self (by simp; omega)
    refine ⟨?_, ?_, ?_, ?_, ?_⟩
    · exact ⟨_, hX ▸ List.mem_append_right _ (List.mem_singleton_self _), rfl⟩
    · intro e hemem heh
      rw [hX] at hemem
      rcases List.mem_append.1 hemem with hmem | hmem
      · exact absurd heh (hnot e (hXsub.subset hmem))
      · rcases List.mem_singleton.1 hmem with rfl
        simp [oldHitCount, createdAtAfterSet, hnone]
    · rw [hX, List.countP_append]
      have h0 : X.countP (fun e => e.queryHash == hashQuery q) = 0 :=
        List.countP_eq_zero.2 (fun a ha hah => hnot a (hXsub.subset ha) (eq_of_beq hah))
      simp [h0]
    · unfold NodupHashes
      rw [hX, List.map_append]
      refine List.nodup_append.2 ⟨List.Nodup.sublist (List.Sublist.map _ hXsub) hN, by simp, ?_⟩
      intro a haX ha1
      simp at ha1
      rcases List.mem_map.1 haX with ⟨x, hx, hxa⟩
      exact hnot x (hXsub.subset hx) (by rw [hxa, ha1])
    · intro e hemem
      rw [set_clock_eq]
      rw [hX] at hemem
      rcases List.mem_append.1 hemem with hmem | hmem
      · exact Nat.lt_trans (hla e (hXsub.subset hmem)) (Nat.lt_succ_self _)
      · rcases List.mem_singleton.1 hmem with rfl
        exact Nat.lt_succ_self _

theorem nodup_hashes_map_preserve (l : List CacheEntry) (f : CacheEntry → CacheEntry)
    (hf : ∀ e, (f e).queryHash = e.queryHash)
    (hN : (l.map (fun e => e.queryHash)).Nodup) :
    ((l.map f).map (fun e => e.queryHash)).Nodup := by
  rw [List.map_map]
  have hfun : ((fun e : CacheEntry => e.queryHash) ∘ f) = fun e : CacheEntry => e.queryHash :=
    funext hf
  rw [hfun]
  exact hN

theorem nodupHashes_set (c : FAQCache) (q r : String) (hN : NodupHashes c) :
    NodupHashes (FAQCache.set c q r) := by
  unfold NodupHashes at hN ⊢
  simp only [FAQCache.set]
  refine List.Nodup.sublist (List.Sublist.map _ (cleanupIfNeeded_sublist _ _)) ?_
  by_cases hA : c.entries.any (fun e => e.queryHash == hashQuery q) = true
  · rw [if_pos hA]
    exact nodup_hashes_map_preserve _ _
      (fun e => by by_cases hx : (e.queryHash == hashQuery q) = true <;> simp [hx]) hN
  · rw [if_neg hA]
    rw [List.map_append]
    refine List.nodup_append.2 ⟨hN, by simp, ?_⟩
    intro a haX ha1
    simp at ha1
    rcases List.mem_map.1 haX with ⟨x, hx, hxa⟩
    exact hA (List.any_eq_true.2 ⟨x, hx, by simp [hxa, ha1]⟩)

theorem nodupHashes_get (c : FAQCache) (q : String) (hN : NodupHashes c) :
    NodupHashes (FAQCache.get c q).2 := by
  unfold NodupHashes at hN ⊢
  cases hfind : c.entries.find?
      (fun e => e.queryHash == hashQuery q && entryFresh c.ttlHours c.clock e) with
  | none => simpa [FAQCache.get, hfind] using hN
  | some e =>
      simp only [FAQCache.get, hfind]
      exact nodup_hashes_map_preserve _ _
        (fun x => by by_cases hx : (x.queryHash == hashQuery q) = true <;> simp [hx]) hN

theorem nodupHashes_advance (c : FAQCache) (n : Nat) (hN : NodupHashes c) :
    NodupHashes (FAQCache.advance c n) := hN

theorem nodupHashes_run (ops : List CacheOp) (c : FAQCache) (hN : NodupHashes c) :
    NodupHashes (runCacheOps ops c) := by
  induction ops generalizing c with
  | nil => exact hN
  | cons op rest ih =>
      cases op with
      | get q => exact ih _ (nodupHashes_get c q hN)
      | set q r => exact ih _ (nodupHashes_set c q r hN)
      | advance n => exact ih _ (nodupHashes_advance c n hN)

theorem get_miss (c : FAQCache) (q : String)
    (hall : ∀ e ∈ c.entries, e.queryHash = hashQuery q →
      e.createdAt + c.ttlHours ≤ c.clock) :
    FAQCache.get c q = (none, { c with clock := c.clock + 1 }) := by
  have hfind : c.entries.find?
      (fun e => e.queryHash == hashQuery q && entryFresh c.ttlHours c.clock e) = none := by
    refine List.find?_eq_none.2 (fun x hx hpx => ?_)
    rw [Bool.and_eq_true] at hpx
    have hxh : x.queryHash = hashQuery q := eq_of_beq hpx.1
    have hfresh : c.clock < x.createdAt + c.ttlHours := by
      simpa [entryFresh] using hpx.2
    exact absurd hfresh (Nat.not_lt.2 (hall x hx hxh))
  simp [FAQCache.get, hfind]

theorem get_hit_response (c : FAQCache) (q : String) (r : String)
    (hex : ∃ e ∈ c.entries, e.queryHash = hashQuery q ∧
      c.clock < e.createdAt + c.ttlHours)
    (hresp : ∀ e ∈ c.entries, e.queryHash = hashQuery q → e.response = r) :
    (FAQCache.get c q).1 = some r := by
  rcases hex with ⟨e, hemem, heh, hef⟩
  have hsome : (c.entries.find?
      (fun x => x.queryHash == hashQuery q && entryFresh c.ttlHours c.clock x)).isSome = true := by
    refine List.find?_isSome.2 ⟨e, hemem, ?_⟩
    simp [heh, entryFresh, hef]
  cases hfind : c.entries.find?
      (fun x => x.queryHash == hashQuery q && entryFresh c.ttlHours c.clock x) with
  | none => rw [hfind] at hsome; simp at hsome
  | some y =>
      have hymem : y ∈ c.entries := List.mem_of_find?_eq_some hfind
      have hypred := List.find?_some hfind
      have hyh : (y.queryHash == hashQuery q) = true := by
        have := hypred
        rw [Bool.and_eq_true] at this
        exact this.1
      have hyr : y.response = r := hresp y hymem (eq_of_beq hyh)
      simp [FAQCache.get, hfind, hyr]

theorem advance_entries_eq (c : FAQCache) (n : Nat) :
    (FAQCache.advance c n).entries = c.entries := rfl

theorem advance_clock_eq (c : FAQCache) (n : Nat) :
    (FAQCache.advance c n).clock = c.clock + n := rfl

theorem oldHitCount_after (c1 : FAQCache) (h : String) (k : Nat)
    (hex : ∃ e ∈ c1.entries, e.queryHash = h)
    (hall : ∀ e ∈ c1.entries, e.queryHash = h → e.hitCount = k) :
    oldHitCount c1 h = k := by
  unfold oldHitCount lookupHash
  rcases hex with ⟨e, hm, hh⟩
  have hsome : (c1.entries.find? (fun x => x.queryHash == h)).isSome = true :=
    List.find?_isSome.2 ⟨e, hm, by simp [hh]⟩
  cases hfind : c1.entries.find? (fun x => x.queryHash == h) with
  | none => rw [hfind] at hsome; simp at hsome
  | some y =>
      have hym : y ∈ c1.entries := List.mem_of_find?_eq_some hfind
      have hyp := List.find?_some hfind
      have hyh : y.queryHash = h := eq_of_beq (by simpa using hyp)
      simp [hall y hym hyh]

/-! ## Claim theorems for the response cache -/

/-- C5: after every cache write the total entry count is at most the
configured cap, and eviction removes the least-recently-accessed rows: in
the concrete scenario, inserting max_size + 5 = 8 distinct queries into an
empty cache capped at 3 leaves exactly the 3 most recent entries and the 5
least-recently-accessed queries are absent. -/
theorem cache_write_size_cap_and_lru_eviction :
    (∀ (c : FAQCache) (q r : String), (FAQCache.set c q r).entries.length ≤ c.maxSize) ∧
    ((["q one", "q two", "q three", "q four", "q five", "q six", "q seven",
        "q eight"].foldl (fun c q => FAQCache.set c q "resp")
          (FAQCache.empty 24 3)).entries.map (fun e => e.query)
        = ["q six", "q seven", "q eight"] ∧
     (["q one", "q two", "q three", "q four", "q five"].all (fun q =>
        (["q one", "q two", "q three", "q four", "q five", "q six", "q seven",
          "q eight"].foldl (fun c q => FAQCache.set c q "resp")
            (FAQCache.empty 24 3)).entries.all
          (fun e => !(e.queryHash == hashQuery q)))) = true) :=
  ⟨fun c q r => set_entries_length_le c q r, by decide, by decide⟩

/-- C8: an entry whose created_at is older than ttl_hours is treated as a
miss by get even though the row may still physically exist: when every row
under the queried hash is expired, get returns none and leaves the stored
rows untouched, so expiry is lazy and get never sweeps. -/
theorem cache_ttl_lazy_expiry (c : FAQCache) (q : String)
    (hall : ∀ e ∈ c.entries, e.queryHash = hashQuery q →
      e.createdAt + c.ttlHours ≤ c.clock) :
    (FAQCache.get c q).1 = none ∧ (FAQCache.get c q).2.entries = c.entries := by
  rw [get_miss c q hall]
  exact ⟨rfl, rfl⟩

/-- Witness for C8: a concrete cache whose single row is 30 hours old under
a 24-hour TTL; get misses yet the row is still stored. -/
theorem cache_ttl_lazy_expiry_witness :
    ((FAQCache.get (FAQCache.advance (FAQCache.set (FAQCache.empty 24 10)
        "what is the deadline?" "March 1") 30) "what is the deadline?").1 = none ∧
     (FAQCache.get (FAQCache.advance (FAQCache.set (FAQCache.empty 24 10)
        "what is the deadline?" "March 1") 30) "what is the deadline?").2.entries
       = (FAQCache.advance (FAQCache.set (FAQCache.empty 24 10)
          "what is the deadline?" "March 1") 30).entries) ∧
    (FAQCache.advance (FAQCache.set (FAQCache.empty 24 10)
        "what is the deadline?" "March 1") 30).entries.length = 1 :=
  ⟨cache_ttl_lazy_expiry _ _ (by decide), by decide⟩

/-- Counterexample to C6 as stated: the upsert of set does not refresh
created_at, so over a pre-existing expired row a get issued immediately
(well within the TTL) after set(q2, "NEW") still misses instead of
returning "NEW", even though the two queries normalize identically. -/
theorem cache_norm_get_set_counterexample :
    hashQuery "  What IS   the Deadline?" = hashQuery "what is the deadline?" ∧
    (FAQCache.get (FAQCache.set (FAQCache.advance (FAQCache.set (FAQCache.empty 24 10)
        "what is the deadline?" "old") 100) "what is the deadline?" "NEW")
      "  What IS   the Deadline?").1 = none := by
  constructor
  · decide
  · decide

/-- C6 amended: for all queries whose normalizations coincide, a get within
the TTL after set(q2, r) returns r, provided every row already stored under
that hash is itself still within the TTL at the time of the get — the
upsert of set does not refresh created_at, so a pre-existing expired row
stays expired and the get still misses. -/
theorem cache_norm_get_set_amended (c : FAQCache) (q1 q2 r : String) (d : Nat)
    (hnorm : hashQuery q1 = hashQuery q2)
    (hN : NodupHashes c)
    (hla : ∀ e ∈ c.entries, e.lastAccessed < c.clock)
    (hlen : c.entries.length ≤ c.maxSize)
    (hmax : 1 ≤ c.maxSize)
    (hwithin : d + 1 < c.ttlHours)
    (hstale : ∀ e ∈ c.entries, e.queryHash = hashQuery q2 →
        c.clock + 1 + d < e.createdAt + c.ttlHours) :
    (FAQCache.get (FAQCache.advance (FAQCache.set c q2 r) d) q1).1 = some r := by
  obtain ⟨hex1, hall1, _, _, _⟩ := set_spec c q2 r hN hla hlen hmax
  have hfreshAt : (FAQCache.advance (FAQCache.set c q2 r) d).clock
      < createdAtAfterSet c (hashQuery q2) + c.ttlHours := by
    rw [advance_clock_eq, set_clock_eq]
    unfold createdAtAfterSet
    cases hfind : lookupHash c (hashQuery q2) with
    | none =>
        show c.clock + 1 + d < c.clock + c.ttlHours
        omega
    | some e0 =>
        show c.clock + 1 + d < e0.createdAt + c.ttlHours
        have he0' : c.entries.find? (fun e => e.queryHash == hashQuery q2) = some e0 := hfind
        have he0mem : e0 ∈ c.entries := List.mem_of_find?_eq_some he0'
        have he0p := List.find?_some he0'
        have he0h : e0.queryHash = hashQuery q2 := eq_of_beq (by simpa using he0p)
        have := hstale e0 he0mem he0h
        omega
  refine get_hit_response _ _ r ?_ ?_
  · rcases hex1 with ⟨e, hemem, heh⟩
    refine ⟨e, ?_, ?_, ?_⟩
    · rw [advance_entries_eq]
      exact hemem
    · rw [hnorm]
      exact heh
    · have hc : e.createdAt = createdAtAfterSet c (hashQuery q2) := (hall1 e hemem heh).2.2
      have httl : (FAQCache.advance (FAQCache.set c q2 r) d).ttlHours = c.ttlHours := rfl
      rw [httl, hc]
      exact hfreshAt
  · intro e hemem heh
    rw [advance_entries_eq] at hemem
    rw [hnorm] at heh
    exact (hall1 e hemem heh).1

/-- Witness for C6 amended: from an empty cache, set then an immediate get
of a differently-spaced and differently-cased query returns the cached
response. -/
theorem cache_norm_get_set_amended_witness :
    hashQuery "  What IS   the Deadline?" = hashQuery "what is the deadline?" ∧
    (FAQCache.get (FAQCache.advance (FAQCache.set (FAQCache.empty 24 10)
        "what is the deadline?" "March 1") 0) "  What IS   the Deadline?").1
      = some "March 1" :=
  ⟨by decide,
   cache_norm_get_set_amended (FAQCache.empty 24 10) "  What IS   the Deadline?"
     "what is the deadline?" "March 1" 0 (by decide) (by simp [NodupHashes, FAQCache.empty]) (by decide)
     (by decide) (by decide) (by decide) (by decide)⟩

/-- C7: set has upsert semantics: two identical sets leave exactly one row
for the normalized-query hash, with hit_count incremented twice over the
pre-existing count instead of a duplicated row, and the query_hash
uniqueness invariant is preserved by every sequence of cache operations. -/
theorem cache_upsert_unique_and_invariant :
    (∀ (c : FAQCache) (q r : String),
      NodupHashes c →
      (∀ e ∈ c.entries, e.lastAccessed < c.clock) →
      c.entries.length ≤ c.maxSize →
      1 ≤ c.maxSize →
      (FAQCache.set (FAQCache.set c q r) q r).entries.countP
          (fun e => e.queryHash == hashQuery q) = 1 ∧
      (∀ e ∈ (FAQCache.set (FAQCache.set c q r) q r).entries,
          e.queryHash = hashQuery q →
          e.response = r ∧ e.hitCount = oldHitCount c (hashQuery q) + 2)) ∧
    (∀ (ops : List CacheOp) (c : FAQCache),
      NodupHashes c → NodupHashes (runCacheOps ops c)) := by
  constructor
  · intro c q r hN hla hlen hmax
    obtain ⟨hex1, hall1, hcount1, hN1, hla1⟩ := set_spec c q r hN hla hlen hmax
    have hlen1 : (FAQCache.set c q r).entries.length ≤ (FAQCache.set c q r).maxSize := by
      rw [set_maxSize_eq]
      exact set_entries_length_le c q r
    have hmax1 : 1 ≤ (FAQCache.set c q r).maxSize := by
      rw [set_maxSize_eq]
      exact hmax
    obtain ⟨hex2, hall2, hcount2, _, _⟩ := set_spec (FAQCache.set c q r) q r hN1 hla1 hlen1 hmax1
    have holdhit : oldHitCount (FAQCache.set c q r) (hashQuery q)
        = oldHitCount c (hashQuery q) + 1 :=
      oldHitCount_after _ _ _ hex1 (fun e he heh => (hall1 e he heh).2.1)
    refine ⟨hcount2, fun e he heh => ?_⟩
    obtain ⟨hr2, hh2, _⟩ := hall2 e he heh
    rw [holdhit] at hh2
    exact ⟨hr2, hh2⟩
  · exact fun ops c hN => nodupHashes_run ops c hN

/-- Witness for C7: two identical sets from the empty cache leave one row
with hit_count 2, and the uniqueness invariant survives a concrete operation
sequence. -/
theorem cache_upsert_unique_and_invariant_witness :
    ((FAQCache.set (FAQCache.set (FAQCache.empty 24 10) "what is the deadline?" "resp")
        "what is the deadline?" "resp").entries.countP
          (fun e => e.queryHash == hashQuery "what is the deadline?") = 1 ∧
     (∀ e ∈ (FAQCache.set (FAQCache.set (FAQCache.empty 24 10) "what is the deadline?" "resp")
        "what is the deadline?" "resp").entries,
        e.queryHash = hashQuery "what is the deadline?" →
        e.response = "resp" ∧
        e.hitCount = oldHitCount (FAQCache.empty 24 10) (hashQuery "what is the deadline?") + 2)) ∧
    NodupHashes (runCacheOps
      [CacheOp.set "a" "r1", CacheOp.get "a", CacheOp.advance 5, CacheOp.set "b" "r2"]
      (FAQCache.empty 24 10)) :=
  ⟨cache_upsert_unique_and_invariant.1 (FAQCache.empty 24 10) "what is the deadline?" "resp"
      (by simp [NodupHashes, FAQCache.empty]) (by decide) (by decide) (by decide),
   cache_upsert_unique_and_invariant.2
      [CacheOp.set "a" "r1", CacheOp.get "a", CacheOp.advance 5, CacheOp.set "b" "r2"]
      (FAQCache.empty 24 10) (by simp [NodupHashes, FAQCache.empty])⟩

example :
    (FAQCache.get (FAQCache.set (FAQCache.empty 24 10) "what is the deadline?" "March 1") "  What IS   the Deadline?").1
      = some "March 1" := by decide

example :
    ((["q one", "q two", "q three", "q four", "q five", "q six", "q seven", "q eight"].foldl
        (fun c q => FAQCache.set c q "resp") (FAQCache.empty 24 3)).entries.map (fun e => e.query))
      = ["q six", "q seven", "q eight"] := by decide

/-! ## Claim theorems for the embedding adapters -/

/-- Counterexample to C2 as stated: when the provider rate-limits every
attempt for the single text of the batch, the retrying adapter
(GeminiEmbeddingFunction) does make exactly 5 attempts with waits
30 * attempt_number, but it then raises RuntimeError for the whole batch
instead of yielding a zero vector without an exception. -/
theorem embedding_retry_counterexample :
    embedWithRetry (fun _ => EmbedOutcome.rateLimited) = (5, [30, 60, 90, 120, 150], none) ∧
    geminiEmbeddingFunctionCall (fun _ _ => EmbedOutcome.rateLimited) ["text"]
      = Except.error "Some embeddings failed. Please retry." :=
  ⟨by decide, rfl⟩

/-- C2 amended: the retrying adapter (GeminiEmbeddingFunction) makes exactly
5 attempts with waits 30 * attempt_number under persistent rate limiting and
the batch call then raises RuntimeError — it never substitutes a zero
vector; a non-rate-limit error is abandoned after exactly 1 attempt with no
retry; the zero-vector substitution lives in the other adapter
(GeminiEmbeddings), which makes exactly one provider call per text, never
retries, pads every failing text with a length-768 zero vector, and never
fails the batch. -/
theorem embedding_retry_amended :
    (∀ provider : Nat → EmbedOutcome,
      (∀ n, provider n = EmbedOutcome.rateLimited) →
      embedWithRetry provider = (5, [30, 60, 90, 120, 150], none)) ∧
    (∀ (provider : Nat → Nat → EmbedOutcome) (input : List String),
      (∀ i n, provider i n = EmbedOutcome.rateLimited) → input ≠ [] →
      geminiEmbeddingFunctionCall provider input
        = Except.error "Some embeddings failed. Please retry.") ∧
    (∀ provider : Nat → EmbedOutcome,
      provider 0 = EmbedOutcome.otherError →
      embedWithRetry provider = (1, [], none)) ∧
    (∀ (provider : Nat → EmbedOutcome) (input : List String),
      (geminiEmbeddingsCall provider input).length = input.length ∧
      (∀ i, i < input.length → (∀ v, provider i ≠ EmbedOutcome.success v) →
        (geminiEmbeddingsCall provider input)[i]? = some (List.replicate embeddingDim 0))) := by
  refine ⟨?_, ?_, ?_, ?_⟩
  · intro provider hp
    simp [embedWithRetry, embedWithRetryGo, hp 0, hp 1, hp 2, hp 3, hp 4]
  · intro provider input hp hne
    have hres : ∀ i, (embedWithRetry (provider i)).2.2 = none := fun i => by
      simp [embedWithRetry, embedWithRetryGo, hp i 0, hp i 1, hp i 2, hp i 3, hp i 4]
    have hlen : 0 < input.length := List.length_pos.2 hne
    have hany : ((List.range input.length).map
        (fun i => (embedWithRetry (provider i)).2.2)).any Option.isNone = true := by
      refine List.any_eq_true.2 ⟨none, ?_, rfl⟩
      have h0 : (0 : Nat) ∈ List.range input.length := List.mem_range.2 hlen
      have hmem := List.mem_map_of_mem (fun i => (embedWithRetry (provider i)).2.2) h0
      have hbeta : (fun i => (embedWithRetry (provider i)).2.2) 0 = none := hres 0
      rwa [hbeta] at hmem
    simp [geminiEmbeddingFunctionCall, hany]
  · intro provider hp
    simp [embedWithRetry, embedWithRetryGo, hp]
  · intro provider input
    constructor
    · simp [geminiEmbeddingsCall]
    · intro i hi hfail
      unfold geminiEmbeddingsCall
      rw [List.getElem?_map, List.getElem?_range hi]
      cases hpi : provider i with
      | success v => exact absurd hpi (hfail v)
      | rateLimited => simp
      | otherError => simp

/-- Witness for C2 amended: each conjunct instantiated at a concrete
provider and batch. -/
theorem embedding_retry_amended_witness :
    embedWithRetry (fun _ => EmbedOutcome.rateLimited) = (5, [30, 60, 90, 120, 150], none) ∧
    geminiEmbeddingFunctionCall (fun _ _ => EmbedOutcome.rateLimited) ["a"]
      = Except.error "Some embeddings failed. Please retry." ∧
    embedWithRetry (fun _ => EmbedOutcome.otherError) = (1, [], none) ∧
    (geminiEmbeddingsCall (fun _ => EmbedOutcome.rateLimited) ["a", "b"]).length = 2 ∧
    (geminiEmbeddingsCall (fun _ => EmbedOutcome.rateLimited) ["a", "b"])[0]?
      = some (List.replicate embeddingDim 0) :=
  ⟨embedding_retry_amended.1 (fun _ => EmbedOutcome.rateLimited) (fun _ => rfl),
   embedding_retry_amended.2.1 (fun _ _ => EmbedOutcome.rateLimited) ["a"]
     (fun _ _ => rfl) (by decide),
   embedding_retry_amended.2.2.1 (fun _ => EmbedOutcome.otherError) rfl,
   (embedding_retry_amended.2.2.2 (fun _ => EmbedOutcome.rateLimited) ["a", "b"]).1,
   (embedding_retry_amended.2.2.2 (fun _ => EmbedOutcome.rateLimited) ["a", "b"]).2 0
     (by decide) (fun v h => EmbedOutcome.noConfusion h)⟩

/-! ## Claim theorems for prompt assembly -/

theorem joinWith_contains (sep : String) (l : List String) (x : String) (hx : x ∈ l) :
    ∃ u v, joinWith sep l = u ++ x ++ v := by
  induction l with
  | nil => cases hx
  | cons a rest ih =>
      cases rest with
      | nil =>
          rcases List.mem_singleton.1 hx with rfl
          exact ⟨"", "", by simp [joinWith]⟩
      | cons b rest2 =>
          rcases List.mem_cons.1 hx with rfl | hx'
          · refine ⟨"", sep ++ joinWith sep (b :: rest2), ?_⟩
            show x ++ sep ++ joinWith sep (b :: rest2) = "" ++ x ++ (sep ++ joinWith sep (b :: rest2))
            simp [String.append_assoc]
          · rcases ih hx' with ⟨u, v, huv⟩
            refine ⟨a ++ sep ++ u, v, ?_⟩
            show a ++ sep ++ joinWith sep (b :: rest2) = a ++ sep ++ u ++ x ++ v
            rw [huv]
            simp [String.append_assoc]

theorem refLines_contains (passages : List String) (p : String) (hp : p ∈ passages) :
    ∀ i : Nat, ∃ line ∈ refLines i passages, ∃ u v, line = u ++ p ++ v := by
  induction passages with
  | nil => cases hp
  | cons a rest ih =>
      intro i
      rcases List.mem_cons.1 hp with rfl | hp'
      · refine ⟨_, List.mem_cons_self _ _, "[Reference " ++ toString (i + 1) ++ "]: ", "", ?_⟩
        simp [String.append_assoc]
      · rcases ih hp' (i + 1) with ⟨line, hline, u, v, huv⟩
        exact ⟨line, List.mem_cons_of_mem _ hline, u, v, huv⟩

theorem assemblePrompt_contains (sys q p : String) (passages : List String)
    (history : List SessionTurn) (hp : p ∈ passages) :
    ∃ u v, assemblePrompt sys passages history q = u ++ p ++ v := by
  obtain ⟨line, hline, u, v, huv⟩ := refLines_contains passages p hp 0
  obtain ⟨u2, v2, h2⟩ := joinWith_contains "\n\n" (refLines 0 passages) line hline
  refine ⟨"\n" ++ sys ++ "\n\nREFERENCE INFORMATION:\n" ++ u2 ++ u,
          v ++ v2 ++ ("\n\n" ++
            (if historyText history = "" then "" else "PREVIOUS CONVERSATION:") ++ "\n" ++
            historyText history ++ "\n\nUSER QUESTION: " ++ q ++
            "\n\nProvide a helpful, accurate response based on the reference information above.\n"),
          ?_⟩
  unfold assemblePrompt
  rw [h2, huv]
  simp [String.append_assoc]

/-- C9: when the assembled generate_with_context prompt (system prompt,
numbered references in ranked order, last-5 history, question) exceeds the
character budget, the prompt actually sent is the assembly hard-truncated to
the budget with the visible truncation marker appended, and every retrieved
passage appears verbatim in the assembly — none is dropped. -/
theorem generate_with_context_truncation (maxContext : Nat) (query : String)
    (passages : List String) (history : List SessionTurn) (systemPrompt : Option String)
    (hover : (assemblePrompt (systemPrompt.getD defaultUniversityPrompt) passages
        history query).length > maxContext) :
    generateWithContextPrompt maxContext query passages history systemPrompt
      = (assemblePrompt (systemPrompt.getD defaultUniversityPrompt) passages
          history query).take maxContext ++ truncationMarker ∧
    (∀ p ∈ passages, ∃ u v,
      assemblePrompt (systemPrompt.getD defaultUniversityPrompt) passages history query
        = u ++ p ++ v) := by
  constructor
  · simp [generateWithContextPrompt, hover]
  · exact fun p hp => assemblePrompt_contains _ query p passages history hp

set_option maxRecDepth 8000 in
/-- Witness for C9: one passage, tiny budget, the sent prompt is the
truncated assembly plus marker and the passage occurs in the assembly. -/
theorem generate_with_context_truncation_witness :
    ((assemblePrompt ((some "SYS").getD defaultUniversityPrompt) ["PASSAGE TEXT"]
        [] "the question").length > 20) ∧
    generateWithContextPrompt 20 "the question" ["PASSAGE TEXT"] [] (some "SYS")
      = (assemblePrompt ((some "SYS").getD defaultUniversityPrompt) ["PASSAGE TEXT"]
          [] "the question").take 20 ++ truncationMarker :=
  ⟨by decide,
   (generate_with_context_truncation 20 "the question" ["PASSAGE TEXT"] [] (some "SYS")
     (by decide)).1⟩

/-! ## Claim theorems for the Q&A agent and the intent router -/

/-- C3: whenever retrieval returns an empty passage list, the QA agent
answers with the fixed-shape apology that quotes the literal query and lists
the rephrase / contact-office / check-website suggestions, reports an empty
sources list, and makes zero generation-provider calls. -/
theorem qa_empty_retrieval_fallback (env : Env) (query : String)
    (history : List SessionTurn)
    (hempty : (env.retrieve query env.topK).documents = []) :
    QAAgent.answer env query history none
      = ({ answer := noContextOpen ++ query ++ noContextClose, sources := [],
           contextChunks := [], numPassages := 0,
           distances := (env.retrieve query env.topK).distances }, 0) ∧
    (∃ u v, (QAAgent.answer env query history none).1.answer = u ++ query ++ v) := by
  have hmain : QAAgent.answer env query history none
      = ({ answer := noContextOpen ++ query ++ noContextClose, sources := [],
           contextChunks := [], numPassages := 0,
           distances := (env.retrieve query env.topK).distances }, 0) := by
    simp [QAAgent.answer, hempty, noContextResponse]
  refine ⟨hmain, ⟨noContextOpen, noContextClose, ?_⟩⟩
  rw [hmain]

/-- Witness for C3: the stub environment has an empty index, so a concrete
query gets the apology with no sources and zero generation calls. -/
theorem qa_empty_retrieval_fallback_witness :
    (stubEnv.retrieve "what is the registration deadline?" stubEnv.topK).documents = [] ∧
    QAAgent.answer stubEnv "what is the registration deadline?" [] none
      = ({ answer := noContextOpen ++ "what is the registration deadline?" ++ noContextClose,
           sources := [], contextChunks := [], numPassages := 0, distances := [] }, 0) :=
  ⟨rfl,
   ((qa_empty_retrieval_fallback stubEnv "what is the registration deadline?" [] rfl).1)⟩

/-- C4: intent classification precedence: a greeting-pattern match yields
general with zero model calls; otherwise an admin-keyword substring match
(case-insensitive) yields admin with zero model calls; any other query
issues exactly one model call, whose stripped lowercased output is kept only
when it is in the valid set and otherwise defaults to qa. -/
theorem classify_intent_precedence (gen : String → String) (query : String) :
    (llmGreetingRe.rmatch (pyStrip query) = true →
      classifyIntent gen query = ("general", 0)) ∧
    (llmGreetingRe.rmatch (pyStrip query) = false →
      adminKeywordHit (pyStrip query) = true →
      classifyIntent gen query = ("admin", 0)) ∧
    (llmGreetingRe.rmatch (pyStrip query) = false →
      adminKeywordHit (pyStrip query) = false →
      (classifyIntent gen query).2 = 1 ∧
      (validIntents.contains (pyLower (pyStrip (gen (classifyPrompt (pyStrip query))))) = false →
        (classifyIntent gen query).1 = "qa") ∧
      (validIntents.contains (pyLower (pyStrip (gen (classifyPrompt (pyStrip query))))) = true →
        (classifyIntent gen query).1
          = pyLower (pyStrip (gen (classifyPrompt (pyStrip query)))))) := by
  refine ⟨?_, ?_, ?_⟩
  · intro hg
    simp [classifyIntent, hg]
  · intro hg ha
    simp [classifyIntent, hg, ha]
  · intro hg ha
    refine ⟨?_, ?_, ?_⟩
    · simp [classifyIntent, hg, ha]
    · intro hbad
      have hbad' : pyLower (pyStrip (gen (classifyPrompt (pyStrip query)))) ∉ validIntents := by
        simpa using hbad
      simp [classifyIntent, hg, ha, hbad']
    · intro hok
      have hok' : pyLower (pyStrip (gen (classifyPrompt (pyStrip query)))) ∈ validIntents := by
        simpa using hok
      simp [classifyIntent, hg, ha, hok']

/-- Witness for C4: the three precedence branches at concrete queries —
a greeting, an admin-keyword query, and an ambiguous query whose model
output is out of vocabulary. -/
theorem classify_intent_precedence_witness :
    classifyIntent (fun _ => "banana") "Bonjour" = ("general", 0) ∧
    classifyIntent (fun _ => "banana") "show me all users data" = ("admin", 0) ∧
    classifyIntent (fun _ => "banana") "where is the library" = ("qa", 1) := by
  refine ⟨?_, ?_, ?_⟩
  · exact (classify_intent_precedence (fun _ => "banana") "Bonjour").1 (by decide)
  · exact (classify_intent_precedence (fun _ => "banana") "show me all users data").2.1
      (by decide) (by decide)
  · have h := (classify_intent_precedence (fun _ => "banana") "where is the library").2.2
      (by decide) (by decide)
    have h1 := h.1
    have h2 := h.2.1 (by decide)
    cases hpair : classifyIntent (fun _ => "banana") "where is the library" with
    | mk a b =>
        rw [hpair] at h1 h2
        simp at h1 h2
        rw [h1, h2]

/-! ## Claim theorems for the application entry point -/

theorem find?_map_update (l : List (String × List SessionTurn)) (sid : String)
    (v : List SessionTurn) (hA : l.any (fun p => p.1 == sid) = true) :
    (l.map (fun p => if p.1 == sid then (p.1, v) else p)).find? (fun p => p.1 == sid)
      = some (sid, v) := by
  induction l with
  | nil => simp at hA
  | cons p rest ih =>
      by_cases hp : (p.1 == sid) = true
      · rw [List.map_cons]
        rw [if_pos hp]
        rw [List.find?_cons_of_pos _ (by simpa using hp)]
        rw [eq_of_beq hp]
      · rw [List.map_cons]
        rw [if_neg hp]
        rw [List.find?_cons_of_neg _ (by simpa using hp)]
        apply ih
        rcases List.any_eq_true.1 hA with ⟨x, hx, hxp⟩
        rcases List.mem_cons.1 hx with rfl | hx'
        · exact absurd hxp hp
        · exact List.any_eq_true.2 ⟨x, hx', hxp⟩

theorem find?_append_new (l : List (String × List SessionTurn)) (sid : String)
    (v : List SessionTurn) (hA : l.any (fun p => p.1 == sid) = false) :
    (l ++ [(sid, v)]).find? (fun p => p.1 == sid) = some (sid, v) := by
  rw [List.find?_append]
  have hnone : l.find? (fun p => p.1 == sid) = none := by
    refine List.find?_eq_none.2 (fun x hx hpx => ?_)
    have h1 : l.any (fun p => p.1 == sid) = true := List.any_eq_true.2 ⟨x, hx, hpx⟩
    rw [hA] at h1
    exact Bool.noConfusion h1
  rw [hnone]
  simp [List.find?]

theorem getHistory_addTurn (m : SessionMemory) (sid q r : String) (now : Nat) :
    (m.addTurn sid q r now).getHistory sid
      = pyLastWindow m.maxTurns
          (m.getHistory sid ++ [{ user := q, assistant := r, timestamp := now }]) := by
  unfold SessionMemory.addTurn
  by_cases hA : m.sessions.any (fun p => p.1 == sid) = true
  · simp only [hA, if_true]
    unfold SessionMemory.getHistory
    rw [find?_map_update _ _ _ hA]
  · have hA' : m.sessions.any (fun p => p.1 == sid) = false := Bool.eq_false_iff.2 hA
    simp only [hA', Bool.false_eq_true, if_false]
    unfold SessionMemory.getHistory
    rw [find?_append_new _ _ _ hA']

theorem processQuery_sessionMem (env : Env) (sid : String) (uid : Option String)
    (q : String) (sm : SessionMemory) (cm : ConversationMemory) (now : Nat) :
    (processQuery env sid uid q sm cm now).2.1
      = sm.addTurn sid q (processQuery env sid uid q sm cm now).1.answer now := rfl

theorem processQuery_convMem_shape (env : Env) (sid : String) (uid : Option String)
    (q : String) (sm : SessionMemory) (cm : ConversationMemory) (now : Nat) :
    ∃ row : ConvRow, (processQuery env sid uid q sm cm now).2.2.rows = cm.rows ++ [row] ∧
      row.query = q ∧ row.sessionId = sid ∧ row.userId = uid ∧ row.timestamp = now :=
  ⟨_, rfl, rfl, rfl, rfl, rfl⟩

/-- Counterexample to C1 as stated: at a state whose cache freshly holds the
query, the handler serves the cached answer and neither the durable
conversations table (still empty) nor the in-process session memory
(unchanged) records the turn. -/
theorem memory_tiers_cache_hit_counterexample :
    (FAQCache.get demoHitState.cache "hi").1.isSome = true ∧
    (appHandleTurn stubEnv "sid-1" (some "alice") demoHitState "hi").2.convMem.rows = [] ∧
    (appHandleTurn stubEnv "sid-1" (some "alice") demoHitState "hi").2.sessionMem
      = demoHitState.sessionMem := by
  refine ⟨by decide, ?_, ?_⟩ <;> rfl

/-- C1 amended: both memory tiers record the turn exactly when the response
cache misses at the entry point, because the orchestrator (which writes both
tiers unconditionally) only runs then; on a cache hit the handler returns the
cached answer directly and neither tier records the turn. -/
theorem memory_tiers_update_amended (env : Env) (sid : String) (uid : Option String)
    (st : AppState) (q : String) :
    ((FAQCache.get st.cache q).1.isSome = true →
      (appHandleTurn env sid uid st q).2.convMem = st.convMem ∧
      (appHandleTurn env sid uid st q).2.sessionMem = st.sessionMem) ∧
    ((FAQCache.get st.cache q).1 = none →
      (∃ row : ConvRow,
        (appHandleTurn env sid uid st q).2.convMem.rows = st.convMem.rows ++ [row] ∧
        row.query = q ∧ row.sessionId = sid ∧ row.userId = uid) ∧
      (∃ t : SessionTurn, t.user = q ∧
        SessionMemory.getHistory (appHandleTurn env sid uid st q).2.sessionMem sid
          = pyLastWindow st.sessionMem.maxTurns
              (SessionMemory.getHistory st.sessionMem sid ++ [t]))) := by
  rcases hg : FAQCache.get st.cache q with ⟨o, cache'⟩
  cases o with
  | some cached =>
      constructor
      · intro _
        constructor <;> simp [appHandleTurn, hg]
      · intro hnone
        simp at hnone
  | none =>
      constructor
      · intro hsome
        simp at hsome
      · intro _
        have hconv : (appHandleTurn env sid uid st q).2.convMem
            = (processQuery env sid uid q st.sessionMem st.convMem st.now).2.2 := by
          simp [appHandleTurn, hg]
        have hsm : (appHandleTurn env sid uid st q).2.sessionMem
            = (processQuery env sid uid q st.sessionMem st.convMem st.now).2.1 := by
          simp [appHandleTurn, hg]
        constructor
        · obtain ⟨row, hrow, hq, hs, hu, _⟩ :=
            processQuery_convMem_shape env sid uid q st.sessionMem st.convMem st.now
          refine ⟨row, ?_, hq, hs, hu⟩
          rw [hconv, hrow]
        · refine ⟨⟨q, (processQuery env sid uid q st.sessionMem st.convMem st.now).1.answer,
            st.now⟩, rfl, ?_⟩
          rw [hsm, processQuery_sessionMem]
          exact getHistory_addTurn st.sessionMem sid q _ st.now

/-- Witness for C1 amended: the cache-hit branch at a state with the query
cached (memories untouched), and the cache-miss branch from an empty cache
(both tiers record the turn). -/
theorem memory_tiers_update_amended_witness :
    ((appHandleTurn stubEnv "sid-1" (some "alice") demoHitState "hi").2.convMem
        = demoHitState.convMem ∧
     (appHandleTurn stubEnv "sid-1" (some "alice") demoHitState "hi").2.sessionMem
        = demoHitState.sessionMem) ∧
    ((∃ row : ConvRow,
        (appHandleTurn stubEnv "sid-1" (some "alice") demoMissState "hello there").2.convMem.rows
          = demoMissState.convMem.rows ++ [row] ∧
        row.query = "hello there" ∧ row.sessionId = "sid-1" ∧ row.userId = some "alice") ∧
     (∃ t : SessionTurn, t.user = "hello there" ∧
        SessionMemory.getHistory
            (appHandleTurn stubEnv "sid-1" (some "alice") demoMissState "hello there").2.sessionMem
            "sid-1"
          = pyLastWindow demoMissState.sessionMem.maxTurns
              (SessionMemory.getHistory demoMissState.sessionMem "sid-1" ++ [t]))) :=
  ⟨(memory_tiers_update_amended stubEnv "sid-1" (some "alice") demoHitState "hi").1 (by decide),
   (memory_tiers_update_amended stubEnv "sid-1" (some "alice") demoMissState "hello there").2
     (by decide)⟩

/-- C10: every query answered from the response cache at the entry point is
delivered with an empty sources list (the cache stores only the response
text), regardless of how the cached answer was originally grounded. -/
theorem cache_hit_sources_empty (env : Env) (sid : String) (uid : Option String)
    (st : AppState) (q r : String)
    (hhit : (FAQCache.get st.cache q).1 = some r) :
    (appHandleTurn env sid uid st q).1.sources = [] ∧
    (appHandleTurn env sid uid st q).1.responseText = r := by
  rcases hg : FAQCache.get st.cache q with ⟨o, cache'⟩
  rw [hg] at hhit
  simp at hhit
  subst hhit
  constructor <;> simp [appHandleTurn, hg]

/-- Witness for C10: the cached greeting is served with an empty sources
list. -/
theorem cache_hit_sources_empty_witness :
    (appHandleTurn stubEnv "sid-1" (some "alice") demoHitState "hi").1.sources = [] ∧
    (appHandleTurn stubEnv "sid-1" (some "alice") demoHitState "hi").1.responseText
      = "Hello! How can I help you today?" :=
  cache_hit_sources_empty stubEnv "sid-1" (some "alice") demoHitState "hi"
    "Hello! How can I help you today?" (by decide)
